import Mathlib

/-!
Shallow embedding of `src/client/connection.rs` of the rumqtt MQTT client
(the connection event loop), together with spec-modelled fragments of the
session state machine (`client/state.rs`, which is not among the provided
sources) where the loop calls into it.

Strings from the Rust source are embedded as `List Char`; machine integers
as `Nat` (no arithmetic overflow is exercised by the embedded code paths).
Stateful code is embedded as explicit state passing; fallible code returns
`Except`.
-/

/-- MQTT quality-of-service levels (mqtt3 crate `QoS`). -/
inductive QoS where
  | atMostOnce
  | atLeastOnce
  | exactlyOnce
deriving DecidableEq, Repr

/-- CONNACK return codes (mqtt3 crate `ConnectReturnCode`). -/
inductive ReturnCode where
  | accepted
  | refusedProtocolVersion
  | refusedIdentifierRejected
  | serverUnavailable
  | badUsernamePassword
  | notAuthorized
deriving DecidableEq, Repr

/-- mqtt3 `Connack`: session-present flag and return code. -/
structure Connack where
  session_present : Bool
  code : ReturnCode
deriving DecidableEq, Repr

/-- mqtt3 `Publish`: topic, QoS, optional packet id, flags, payload bytes. -/
structure Publish where
  dup : Bool
  qos : QoS
  retain : Bool
  topic_name : List Char
  pid : Option Nat
  payload : List Nat
deriving DecidableEq, Repr

/-- mqtt3 `Connect` packet payload (the fields the spec's §3 and §4.1 name:
client identifier, keep alive, clean session, credentials, last will is
elided as it never flows through the embedded paths). -/
structure Connect where
  client_id : List Char
  keep_alive : Option Nat
  clean_session : Bool
  username : Option (List Char)
  password : Option (List Char)
deriving DecidableEq, Repr

/-- mqtt3 `Packet`: the sum type of MQTT control packets. -/
inductive Packet where
  | Connect (c : Connect)
  | Connack (c : Connack)
  | Publish (p : Publish)
  | Puback (pid : Nat)
  | Pubrec (pid : Nat)
  | Pubrel (pid : Nat)
  | Pubcomp (pid : Nat)
  | Subscribe (pid : Nat) (topics : List (List Char × QoS))
  | Suback (pid : Nat) (codes : List Nat)
  | Unsubscribe (pid : Nat) (topics : List (List Char))
  | Unsuback (pid : Nat)
  | Pingreq
  | Pingresp
  | Disconnect
deriving DecidableEq, Repr

/-- `mqttopts::ConnectionMethod`: plain TCP, or TLS with a CA file and an
optional client certificate/key pair. -/
inductive ConnectionMethod where
  | tcp
  | tls (ca : List Char) (client_pair : Option (List Char × List Char))
deriving DecidableEq, Repr

/-- `mqttopts::MqttOptions`: the configuration fields the embedded code
paths consume. -/
structure MqttOptions where
  broker_addr : List Char
  client_id : List Char
  keep_alive : Option Nat
  clean_session : Bool
  username : Option (List Char)
  password : Option (List Char)
  connection_method : ConnectionMethod
deriving DecidableEq, Repr

/-- `error::ConnectError` (the error taxonomy of spec §7; `error.rs` is not
among the provided sources, the constructors follow the spec's taxonomy and
the uses in `connection.rs`). -/
inductive ConnectError where
  | dnsListEmpty
  | io
  | tls
  | connectionRefused (code : ReturnCode)
  | protocolError
  | pingTimeout
  | mqttPacketSizeLimitExceeded
deriving DecidableEq, Repr

/-! ## TLS connector construction (`new_tls_connector`, lines 231-249) -/

/-- openssl `SslVerifyMode` as used by `connection.rs`: `PEER` or `NONE`. -/
inductive SslVerifyMode where
  | peer
  | none
deriving DecidableEq, Repr

/-- The observable configuration of an openssl `SslConnector` builder:
which CA file, certificate file and private key file have been set, and the
verification mode in force. `SslConnector::builder` defaults to peer
verification with no files loaded. -/
structure SslConnectorCfg where
  ca_file : Option (List Char)
  certificate_file : Option (List Char)
  private_key_file : Option (List Char)
  verify : SslVerifyMode
deriving DecidableEq, Repr

/-- Embedding of `Connection::new_tls_connector` (connection.rs lines
231-249): build a connector, load the CA file, and when a client
certificate/key pair is supplied install both and set verification to
`PEER`, otherwise set verification to `NONE`. -/
def new_tls_connector (ca : List Char) (client_pair : Option (List Char × List Char)) :
    SslConnectorCfg :=
  let b : SslConnectorCfg :=
    { ca_file := Option.none, certificate_file := Option.none,
      private_key_file := Option.none, verify := SslVerifyMode.peer }
  let b := { b with ca_file := some ca }
  match client_pair with
  | some (cert, key) =>
      let b := { b with certificate_file := some cert }
      let b := { b with private_key_file := some key }
      { b with verify := SslVerifyMode.peer }
  | Option.none =>
      { b with verify := SslVerifyMode.none }

/-! ## Address resolution (`get_socket_address`, lines 251-264) -/

/-- A resolved socket endpoint (std `SocketAddr`), kept abstract as an
(ip, port) pair of numbers. -/
structure SocketAddr where
  ip : Nat
  port : Nat
deriving DecidableEq, Repr

/-- Embedding of Rust `str::split(sep)` on character lists: the list of
maximal separator-free chunks; splitting always yields at least one chunk
(the empty string splits to one empty chunk, as in Rust). -/
def splitOnChar (sep : Char) : List Char → List (List Char)
  | [] => [[]]
  | c :: rest =>
    if c = sep then
      [] :: splitOnChar sep rest
    else
      match splitOnChar sep rest with
      | [] => [[c]]
      | h :: t => (c :: h) :: t

/-- Embedding of `Connection::get_socket_address` (connection.rs lines
251-264): the domain is the first chunk of the broker address split on
`:` (`.next().unwrap_or_default()`); the address list comes from
`to_socket_addrs()` (its result is passed in: `.error` models an I/O
failure of resolution itself, converted by `?`, and `.ok l` a successful
resolution to the endpoint list); the first resolved endpoint is returned,
and an empty resolution list fails with `DnsListEmpty`. -/
def get_socket_address (broker_addr : List Char)
    (resolved : Except Unit (List SocketAddr)) :
    Except ConnectError (SocketAddr × List Char) :=
  let domain := ((splitOnChar ':' broker_addr).head?).getD []
  match resolved with
  | .error _ => .error ConnectError.io
  | .ok addrs =>
    match addrs.head? with
    | some a => .ok (a, domain)
    | Option.none => .error ConnectError.dnsListEmpty

/-- The spec's words for the verification domain: "the substring of the
broker address before the first `:`". -/
def domain_per_spec (broker_addr : List Char) : List Char :=
  broker_addr.takeWhile (fun c => c != ':')

/-! ## Connect phase (`mqtt_connect`, lines 183-201) -/

/-- Modelled from the spec: `handle_outgoing_connect` lives in
`client/state.rs`, which is not among the provided sources. Per spec §4.1
it "builds the `CONNECT` packet from options". -/
def handle_outgoing_connect (opts : MqttOptions) : Connect :=
  { client_id := opts.client_id
    keep_alive := opts.keep_alive
    clean_session := opts.clean_session
    username := opts.username
    password := opts.password }

/-- Modelled from the spec: `handle_incoming_connack` lives in
`client/state.rs`, which is not among the provided sources. Per spec §4.1
it "validates return code; on success sets `connection_status = Connected`";
"Any non-accepted code fails" with `ConnectionRefused(code)`. -/
def handle_incoming_connack (c : Connack) : Except ConnectError Unit :=
  match c.code with
  | ReturnCode.accepted => .ok ()
  | code => .error (ConnectError.connectionRefused code)

/-- The outcome of the connect phase. `ok remaining` returns the framed
stream, whose unconsumed inbound side is `remaining`; `err` is an early
return with a `ConnectError`; `panics` is the `unimplemented!()` branch of
the source (a Rust panic, not an error return). -/
inductive ConnectOutcome where
  | ok (remaining : List Packet)
  | err (e : ConnectError)
  | panics
deriving DecidableEq, Repr

/-- Embedding of `Connection::mqtt_connect` (connection.rs lines 183-201):
build the `CONNECT` packet via `handle_outgoing_connect`, send it, then
await exactly one inbound packet (`framed.into_future()`): a `CONNACK` is
validated via `handle_incoming_connack` and on success the framed stream is
returned; `None` (EOF) is the io error "Connection closed by server"; any
other packet hits `unimplemented!()` and panics. The inbound wire is passed
in as the list of packets the broker will deliver; the first component of
the result is the list of packets the client sent during the phase. -/
def mqtt_connect (opts : MqttOptions) (inbound : List Packet) :
    List Packet × ConnectOutcome :=
  let connect := handle_outgoing_connect opts
  let sent := [Packet.Connect connect]
  match inbound with
  | [] => (sent, ConnectOutcome.err ConnectError.io)
  | Packet.Connack c :: rest =>
      match handle_incoming_connack c with
      | .ok _ => (sent, ConnectOutcome.ok rest)
      | .error e => (sent, ConnectOutcome.err e)
  | _ :: _ => (sent, ConnectOutcome.panics)

/-! ## Inbound receive task (`mqtt_network_recv_future`, lines 124-156) -/

/-- Trace of one run of the inbound receive task:
`processed` are the packets fed to `handle_incoming_mqtt_packet`,
`delivered` the notifications that reached the notifier queue,
`replies` the replies enqueued onto the internal reply queue, and
`errored` whether the task ended with an error (which happens exactly when
sending a reply onto the internal reply queue fails). -/
structure RecvTrace where
  processed : List Packet
  delivered : List Packet
  replies : List Packet
  errored : Bool
deriving DecidableEq, Repr

/-- Embedding of the `for_each` body and loop of
`Connection::mqtt_network_recv_future` (connection.rs lines 128-153),
run over a finite prefix of the inbound packet stream. For each packet:
`handle_incoming_mqtt_packet` is called (explicit state passing through
`σ`; its result is `Except` of an optional notification and an optional
reply); on `Err` the error is logged and `(None, None)` is used, and the
task continues. A notification is delivered with `notifier.try_send`,
whose success at step `i` is the oracle `notifyOk i`; on failure the error
is only logged. A reply is sent with `network_reply_tx.send`, whose success
at step `i` is the oracle `replyOk i`; on failure the inner future fails,
which ends the `for_each` with an error. -/
def mqtt_network_recv_run {σ ε : Type}
    (handle : σ → Packet → σ × Except ε (Option Packet × Option Packet))
    (notifyOk replyOk : Nat → Bool) :
    σ → Nat → List Packet → σ × RecvTrace
  | st, _, [] => (st, ⟨[], [], [], false⟩)
  | st, i, p :: rest =>
    let (st1, res) := handle st p
    let nr := match res with
      | .ok nr => nr
      | .error _ => (Option.none, Option.none)
    let delivered0 : List Packet := match nr.1 with
      | some np => if notifyOk i then [np] else []
      | Option.none => []
    match nr.2 with
    | some rp =>
        if replyOk i then
          let (st2, tr) := mqtt_network_recv_run handle notifyOk replyOk st1 (i+1) rest
          (st2, ⟨p :: tr.processed, delivered0 ++ tr.delivered, rp :: tr.replies, tr.errored⟩)
        else
          (st1, ⟨[p], delivered0, [], true⟩)
    | Option.none =>
        let (st2, tr) := mqtt_network_recv_run handle notifyOk replyOk st1 (i+1) rest
        (st2, ⟨p :: tr.processed, delivered0 ++ tr.delivered, tr.replies, tr.errored⟩)

/-- A concrete behavior `handle_incoming_mqtt_packet` can have per spec
§4.1 ("`Connack` after initial: `ProtocolError`"): a duplicate `CONNACK`
inside the event loop is a protocol error; every other packet is handled
without notification or reply. Used to exercise the receive task on a
protocol error. -/
def connack_is_error : Unit → Packet → Unit × Except Unit (Option Packet × Option Packet) :=
  fun u p =>
    match p with
    | Packet.Connack _ => (u, .error ())
    | _ => (u, .ok (Option.none, Option.none))

/-! ## Keep-alive timer (`ping_timer_future`, lines 159-181) -/

/-- The slice of `MqttState` that `is_ping_required` consults (spec §3 and
§4.1): connection status, configured keep-alive, seconds elapsed since
`last_control_at`, and the `await_pingresp` flag. -/
structure PingState where
  connected : Bool
  keep_alive : Option Nat
  elapsed_since_last_control : Nat
  await_pingresp : Bool
deriving DecidableEq, Repr

/-- Modelled from the spec: `is_ping_required` lives in `client/state.rs`,
which is not among the provided sources. Per spec §4.1 it is "true iff
`connection_status = Connected` AND keep-alive is configured AND
`(now − last_control_at) ≥ keep_alive` AND `await_pingresp = false`". -/
def is_ping_required (s : PingState) : Bool :=
  s.connected &&
  (match s.keep_alive with
   | some k => decide (k ≤ s.elapsed_since_last_control)
   | Option.none => false) &&
  !s.await_pingresp

/-- Effect of one tick of the keep-alive timer. `enqueue p` pushes `p`
onto the internal reply queue; `idle` does nothing; `pingTimeout` is the
fatal ping-timeout the spec demands — it is present so that the demand is
expressible, the source never produces it. -/
inductive TickEffect where
  | enqueue (p : Packet)
  | idle
  | pingTimeout
deriving DecidableEq, Repr

/-- Embedding of the `Interval::for_each` body of
`Connection::ping_timer_future` (connection.rs lines 165-175): on each
tick, if `is_ping_required()` then `Pingreq` is sent onto the internal
reply queue, else nothing happens. There is no other branch. -/
def ping_timer_tick (s : PingState) : TickEffect :=
  if is_ping_required s then TickEffect.enqueue Packet.Pingreq
  else TickEffect.idle

/-- Embedding of the guard of `Connection::ping_timer_future` (connection.rs
lines 163, 178-180): the interval timer exists only when `keep_alive` is
configured; otherwise the future is `future::ok(())`. -/
def ping_timer_exists (keep_alive : Option Nat) : Bool :=
  keep_alive.isSome

/-- Embedding of the interval construction (connection.rs line 164):
`Interval::new(Duration::new(u64::from(keep_alive), 0))` — the timer period
in (seconds, nanoseconds). -/
def ping_timer_period (keep_alive : Nat) : Nat × Nat :=
  (keep_alive, 0)

/-! ## Event-loop composition (`start`, lines 57-117) -/

/-- Resolution status of a futures-0.1 future at an instant: still pending,
completed with a value, or failed with an error. -/
inductive FutStatus where
  | pending
  | done
  | failed
deriving DecidableEq, Repr

/-- Whether a future has resolved (with a value or an error). -/
def futResolved : FutStatus → Bool
  | FutStatus.pending => false
  | _ => true

/-- futures-0.1 `Future::join` resolution: fails as soon as either side
fails; completes when both sides have completed; otherwise pending. -/
def futJoin : FutStatus → FutStatus → FutStatus
  | FutStatus.failed, _ => FutStatus.failed
  | _, FutStatus.failed => FutStatus.failed
  | FutStatus.done, FutStatus.done => FutStatus.done
  | _, _ => FutStatus.pending

/-- Embedding of the composition of connection.rs lines 100-103:
`mqtt_send_and_ping = mqtt_send.join(ping_timer)` and
`mqtt_send_and_recv = mqtt_recv.select(mqtt_send_and_ping)`; the reactor
run (line 105) ends exactly when the `select` has resolved, i.e. when
either the inbound receive future or the join of the outbound send and
ping timer futures has resolved. -/
def start_loop_resolved (recv send ping : FutStatus) : Bool :=
  futResolved recv || futResolved (futJoin send ping)

/-- Status of the ping-timer future while the internal reply queue is open:
when `keep_alive` is configured it is an infinite `Interval` stream's
`for_each`, which never completes (connection.rs line 164); when not
configured it is `future::ok(())`, complete immediately (line 179). -/
def ping_timer_status (keep_alive : Option Nat) : FutStatus :=
  match keep_alive with
  | some _ => FutStatus.pending
  | Option.none => FutStatus.done

/-! ## Outbound pipeline ordering (`start`, lines 66-78) -/

/-- Where an outbound item originated: the reconnection snapshot
(`last_session_publishes`), the user command queue (`commands_rx`), or the
internal reply queue (`network_reply_rx`). -/
inductive Origin where
  | snapshot
  | command
  | reply
deriving DecidableEq, Repr

/-- A packet tagged with its origin. -/
abbrev Tagged := Origin × Packet

/-- Tag every packet of a stream with its origin. -/
def tagStream (o : Origin) (l : List Packet) : List Tagged :=
  l.map (fun p => (o, p))

/-- Embedding of `last_session_publishes.chain(commands_rx)` (connection.rs
lines 76-77): the reconnection snapshot is exhausted before the first user
command is drawn. -/
def outbound_chain (snap cmds : List Packet) : List Tagged :=
  tagStream Origin.snapshot snap ++ tagStream Origin.command cmds

/-- `m` is an interleaving of `l` and `r`: it contains exactly the elements
of `l` and of `r`, each in its original relative order. futures-0.1
`Stream::select` (connection.rs line 78) produces some such interleaving of
the chained stream with the internal reply stream. -/
inductive Interleaving : List Tagged → List Tagged → List Tagged → Prop where
  | nil : Interleaving [] [] []
  | left {l r m : List Tagged} (a : Tagged) :
      Interleaving l r m → Interleaving (a :: l) r (a :: m)
  | right {l r m : List Tagged} (a : Tagged) :
      Interleaving l r m → Interleaving l (a :: r) (a :: m)

/-! ## Event-loop exit (`start`, lines 105-116) -/

/-- Embedding of the `match self.reactor.run(...)` at the end of
`Connection::start` (connection.rs lines 105-116): whether the raced
futures resolve with a value (`Ok((v, _next))`) or with an error
(`Err((e, _next))`), `handle_disconnect()` is invoked on the state machine
(passed in as a state transformer, `state.rs` not being among the provided
sources) and `start` returns `Ok(())`. -/
def start_exit {σ α ε : Type} (handle_disconnect : σ → σ) (st : σ)
    (outcome : Except ε α) : σ × Except ConnectError Unit :=
  match outcome with
  | .ok _ => (handle_disconnect st, .ok ())
  | .error _ => (handle_disconnect st, .ok ())

/-! ## Concrete values used by witnesses and counterexamples -/

/-- A concrete configuration: plain TCP to `localhost:1883`. -/
def opts0 : MqttOptions :=
  { broker_addr := ['l','o','c','a','l','h','o','s','t',':','1','8','8','3']
    client_id := ['t','e','s','t']
    keep_alive := some 10
    clean_session := true
    username := Option.none
    password := Option.none
    connection_method := ConnectionMethod.tcp }

/-- A CONNACK with the accepted return code. -/
def connack_ok : Connack := ⟨false, ReturnCode.accepted⟩

/-- A concrete broker address, `host:1883`. -/
def addr0 : List Char := ['h','o','s','t',':','1','8','8','3']

/-- A concrete QoS 1 publish, as a reconnection-snapshot republish
(`dup = true`). -/
def pubA : Packet :=
  Packet.Publish ⟨true, QoS.atLeastOnce, false, ['a'], some 1, [7]⟩

/-- A concrete behavior `handle_incoming_mqtt_packet` can have per spec
§4.1 ("`Publish` QoS 0: notification = the publish; reply = none"): a QoS 0
publish yields a notification and no reply; every other packet yields
neither. Used to exercise the receive task on a notification delivery
failure. -/
def publish_notifies : Unit → Packet → Unit × Except Unit (Option Packet × Option Packet) :=
  fun u p =>
    match p with
    | Packet.Publish q => (u, .ok (some (Packet.Publish q), Option.none))
    | _ => (u, .ok (Option.none, Option.none))

/-! ## Helper lemmas -/

/-- The first chunk of a split is the maximal separator-free prefix. -/
theorem splitOnChar_head (sep : Char) (l : List Char) :
    ∃ t, splitOnChar sep l = (l.takeWhile (fun c => c != sep)) :: t := by
  induction l with
  | nil => exact ⟨[], rfl⟩
  | cons c rest ih =>
    by_cases h : c = sep
    · refine ⟨splitOnChar sep rest, ?_⟩
      simp [splitOnChar, h, List.takeWhile]
    · obtain ⟨t, ht⟩ := ih
      refine ⟨t, ?_⟩
      have hb : (c != sep) = true := by simp [bne_iff_ne, h]
      simp [splitOnChar, h, ht, List.takeWhile, hb]

/-- Filtering an interleaving with a predicate that holds on all of the
left stream and on none of the right stream recovers exactly the left
stream. -/
theorem Interleaving.filter_left {p : Tagged → Bool} :
    ∀ {l r m : List Tagged}, Interleaving l r m →
    (∀ x ∈ l, p x = true) → (∀ x ∈ r, p x = false) →
    m.filter p = l := by
  intro l r m h
  induction h with
  | nil => intro _ _; rfl
  | left a h ih =>
    intro hl hr
    have hpa : p a = true := hl a (by simp)
    simp [List.filter, hpa, ih (fun x hx => hl x (by simp [hx])) hr]
  | right a h ih =>
    intro hl hr
    have hpa : p a = false := hr a (by simp)
    simp [List.filter, hpa, ih hl (fun x hx => hr x (by simp [hx]))]

/-- Every element of a tagged stream carries the stream's origin. -/
theorem mem_tagStream {o : Origin} {l : List Packet} {z : Tagged}
    (h : z ∈ tagStream o l) : z.1 = o := by
  simp [tagStream] at h
  obtain ⟨p, _, rfl⟩ := h
  rfl

/-! ## Claim theorems -/

/-- C1: contrary to the claim, when the single awaited inbound packet is
present but is not a `CONNACK`, `mqtt_connect` does not return a
`ConnectError`: the source's `match` falls into `unimplemented!()`, i.e. it
panics. Evaluated here at the concrete input where the broker answers the
CONNECT with a `PINGRESP`. -/
theorem C1_non_connack_panics :
    mqtt_connect opts0 [Packet.Pingresp] =
      ([Packet.Connect (handle_outgoing_connect opts0)], ConnectOutcome.panics) ∧
    ConnectOutcome.panics ≠ ConnectOutcome.err ConnectError.protocolError := by
  exact ⟨rfl, by decide⟩

/-- C2 counterexample: the claim is false as stated. With
`handle_incoming_mqtt_packet` returning a protocol error on the first
inbound packet (a duplicate `CONNACK`, a `ProtocolError` per spec §4.1),
the inbound receive task does not end: it also processes the second packet
and finishes without error. -/
theorem C2_counterexample :
    mqtt_network_recv_run connack_is_error (fun _ => true) (fun _ => true) () 0
      [Packet.Connack connack_ok, Packet.Pingresp] =
    ((), ⟨[Packet.Connack connack_ok, Packet.Pingresp], [], [], false⟩) := rfl

/-- C2 (amended): for every inbound packet on which
`handle_incoming_mqtt_packet` returns a protocol error, the error is only
logged: the packet contributes no notification and no reply, and the
inbound receive task continues processing the subsequent inbound packets
(the connection attempt is not terminated by it). -/
theorem C2_protocol_error_nonfatal {σ ε : Type}
    (handle : σ → Packet → σ × Except ε (Option Packet × Option Packet))
    (notifyOk replyOk : Nat → Bool) (st : σ) (i : Nat) (p : Packet) (rest : List Packet)
    (st1 : σ) (e : ε) (h : handle st p = (st1, Except.error e)) :
    mqtt_network_recv_run handle notifyOk replyOk st i (p :: rest) =
      ((mqtt_network_recv_run handle notifyOk replyOk st1 (i+1) rest).1,
       ⟨p :: (mqtt_network_recv_run handle notifyOk replyOk st1 (i+1) rest).2.processed,
        (mqtt_network_recv_run handle notifyOk replyOk st1 (i+1) rest).2.delivered,
        (mqtt_network_recv_run handle notifyOk replyOk st1 (i+1) rest).2.replies,
        (mqtt_network_recv_run handle notifyOk replyOk st1 (i+1) rest).2.errored⟩) := by
  simp [mqtt_network_recv_run, h]

/-- C2 witness: the amended theorem applied at a concrete input — a
duplicate `CONNACK` followed by a `PINGRESP`. -/
theorem C2_witness :
    mqtt_network_recv_run connack_is_error (fun _ => true) (fun _ => true) () 0
      [Packet.Connack connack_ok, Packet.Pingresp] =
    ((mqtt_network_recv_run connack_is_error (fun _ => true) (fun _ => true) () 1 [Packet.Pingresp]).1,
     ⟨Packet.Connack connack_ok ::
        (mqtt_network_recv_run connack_is_error (fun _ => true) (fun _ => true) () 1 [Packet.Pingresp]).2.processed,
      (mqtt_network_recv_run connack_is_error (fun _ => true) (fun _ => true) () 1 [Packet.Pingresp]).2.delivered,
      (mqtt_network_recv_run connack_is_error (fun _ => true) (fun _ => true) () 1 [Packet.Pingresp]).2.replies,
      (mqtt_network_recv_run connack_is_error (fun _ => true) (fun _ => true) () 1 [Packet.Pingresp]).2.errored⟩) :=
  C2_protocol_error_nonfatal connack_is_error (fun _ => true) (fun _ => true) () 0
    (Packet.Connack connack_ok) [Packet.Pingresp] () () rfl

/-- C3: at a tick where a previous ping is still unanswered
(`await_pingresp = true`) and the keep-alive interval has elapsed
(keep-alive 10, 20 seconds since the last control packet, connected), the
source's tick body does nothing at all: `is_ping_required()` is false, so
the `else` branch (`future::ok(())`) runs — no `Pingreq` is enqueued and no
fatal ping-timeout is raised, contrary to the claim. -/
theorem C3_no_ping_timeout :
    ping_timer_tick ⟨true, some 10, 20, true⟩ = TickEffect.idle ∧
    ping_timer_tick ⟨true, some 10, 20, true⟩ ≠ TickEffect.pingTimeout := by
  exact ⟨rfl, by decide⟩

/-- C4 counterexample: the claim is false as stated. With keep-alive
configured, completion of the outbound send future alone does not end the
loop: the reactor races the inbound receive against the JOIN of the
outbound send and the ping timer, and the ping timer (an infinite interval
stream) is still pending, so the join — and hence the loop — is unresolved
while the inbound receive is pending. -/
theorem C4_counterexample :
    start_loop_resolved FutStatus.pending FutStatus.done (ping_timer_status (some 10)) = false := rfl

/-- C4 (amended): within one run of `start()`, the event loop ends exactly
when the inbound receive future has resolved, or the outbound send and
ping timer futures have both completed, or either of those two has failed;
in particular, when keep-alive is not configured the ping timer future is
complete immediately and completion of the outbound send alone suffices. -/
theorem C4_loop_termination (recv send ping : FutStatus) :
    (start_loop_resolved recv send ping = true ↔
      (futResolved recv = true ∨ (send = FutStatus.done ∧ ping = FutStatus.done) ∨
       send = FutStatus.failed ∨ ping = FutStatus.failed)) ∧
    (send = FutStatus.done →
      start_loop_resolved recv send (ping_timer_status Option.none) = true) := by
  cases recv <;> cases send <;> cases ping <;>
    simp [start_loop_resolved, futResolved, futJoin, ping_timer_status]

/-- C4 witness: the amended theorem applied at a concrete input — the
inbound receive completed, everything else pending. -/
theorem C4_witness :
    start_loop_resolved FutStatus.done FutStatus.pending FutStatus.pending = true :=
  (C4_loop_termination FutStatus.done FutStatus.pending FutStatus.pending).1.mpr
    (Or.inl rfl)

/-- C5: in the outbound pipeline of `start()`, the reconnection snapshot is
chained before the user command stream and the result merged with the
internal reply stream; in every interleaving the merge can produce, no
user command ever precedes a reconnection-snapshot packet — every
republished packet reaches the state machine and sender before any user
command of that run. -/
theorem C5_snapshot_precedes_commands {snap cmds replies : List Packet}
    {merged : List Tagged}
    (h : Interleaving (outbound_chain snap cmds) (tagStream Origin.reply replies) merged)
    (x y : Tagged) (hx : x.1 = Origin.command) (hy : y.1 = Origin.snapshot) :
    ¬ List.Sublist [x, y] merged := by
  intro hsub
  set p : Tagged → Bool := fun z => decide (z.1 ≠ Origin.reply) with hp
  have hfil : merged.filter p = outbound_chain snap cmds := by
    apply h.filter_left
    · intro z hz
      simp only [outbound_chain, List.mem_append] at hz
      rcases hz with hz | hz
      · have := mem_tagStream hz; simp [hp, this]
      · have := mem_tagStream hz; simp [hp, this]
    · intro z hz
      have := mem_tagStream hz
      simp [hp, this]
  have hxy : [x, y].filter p = [x, y] := by
    simp [hp, List.filter, hx, hy]
  have hsub2 : List.Sublist [x, y] (outbound_chain snap cmds) := by
    have := List.Sublist.filter p hsub
    rwa [hxy, hfil] at this
  rw [outbound_chain, List.sublist_append_iff] at hsub2
  obtain ⟨s, t, hst, hsA, htB⟩ := hsub2
  rcases s with _ | ⟨a, s1⟩
  · rw [List.nil_append] at hst
    rw [← hst] at htB
    have hyB : y ∈ tagStream Origin.command cmds := htB.subset (by simp)
    have hyo := mem_tagStream hyB
    rw [hy] at hyo
    exact Origin.noConfusion hyo
  · rw [List.cons_append] at hst
    injection hst with h1 h2
    subst h1
    have hxA : x ∈ tagStream Origin.snapshot snap := hsA.subset (by simp)
    have hxo := mem_tagStream hxA
    rw [hx] at hxo
    exact Origin.noConfusion hxo

/-- C5 witness: the theorem applied at a concrete input — snapshot
`[pubA]`, commands `[Pingreq]`, replies `[Puback 1]`, and the interleaving
that delivers the reply between them. -/
theorem C5_witness :
    ¬ List.Sublist
      [(Origin.command, Packet.Pingreq), (Origin.snapshot, pubA)]
      [(Origin.snapshot, pubA), (Origin.reply, Packet.Puback 1),
       (Origin.command, Packet.Pingreq)] :=
  @C5_snapshot_precedes_commands [pubA] [Packet.Pingreq] [Packet.Puback 1]
    [(Origin.snapshot, pubA), (Origin.reply, Packet.Puback 1),
     (Origin.command, Packet.Pingreq)]
    (Interleaving.left (Origin.snapshot, pubA)
      (Interleaving.right (Origin.reply, Packet.Puback 1)
        (Interleaving.left (Origin.command, Packet.Pingreq) Interleaving.nil)))
    (Origin.command, Packet.Pingreq) (Origin.snapshot, pubA) rfl rfl

/-- C6: on every exit path of the event loop — whether the raced futures
resolve with a value or with an error — `start()` invokes
`handle_disconnect()` on the state machine and then returns success, so
operational errors inside the loop never surface as an `Err` from
`start()`. -/
theorem C6_exit_disconnects_and_succeeds {σ α ε : Type}
    (handle_disconnect : σ → σ) (st : σ) (outcome : Except ε α) :
    start_exit handle_disconnect st outcome = (handle_disconnect st, Except.ok ()) := by
  cases outcome <;> rfl

/-- C7: the connect phase sends exactly one `CONNECT` packet built by
`handle_outgoing_connect`; it then awaits exactly one inbound packet: a
`CONNACK` is validated via `handle_incoming_connack` and on success the
framed stream is returned (having consumed exactly that one packet), and
EOF (no packet) yields an error instead of proceeding. -/
theorem C7_connect_phase (opts : MqttOptions) (inbound : List Packet) :
    (mqtt_connect opts inbound).1 = [Packet.Connect (handle_outgoing_connect opts)] ∧
    (inbound = [] → (mqtt_connect opts inbound).2 = ConnectOutcome.err ConnectError.io) ∧
    (∀ c rest, inbound = Packet.Connack c :: rest →
      handle_incoming_connack c = Except.ok () →
      (mqtt_connect opts inbound).2 = ConnectOutcome.ok rest) := by
  refine ⟨?_, ?_, ?_⟩
  · cases inbound with
    | nil => rfl
    | cons p rest =>
      cases p <;> try rfl
      rename_i c
      show (match handle_incoming_connack c with
        | .ok _ => ([Packet.Connect (handle_outgoing_connect opts)], ConnectOutcome.ok rest)
        | .error e => ([Packet.Connect (handle_outgoing_connect opts)], ConnectOutcome.err e)).1 =
        [Packet.Connect (handle_outgoing_connect opts)]
      cases handle_incoming_connack c <;> rfl
  · intro h
    subst h
    rfl
  · intro c rest h hok
    subst h
    simp [mqtt_connect, hok]

/-- C7 witness: the theorem applied at a concrete input — an accepted
CONNACK followed by one more inbound packet. -/
theorem C7_witness :
    (mqtt_connect opts0 [Packet.Connack connack_ok, Packet.Pingresp]).1 =
      [Packet.Connect (handle_outgoing_connect opts0)] ∧
    (mqtt_connect opts0 [Packet.Connack connack_ok, Packet.Pingresp]).2 =
      ConnectOutcome.ok [Packet.Pingresp] := by
  obtain ⟨h1, _, h3⟩ := C7_connect_phase opts0 [Packet.Connack connack_ok, Packet.Pingresp]
  exact ⟨h1, h3 connack_ok [Packet.Pingresp] rfl rfl⟩

/-- C8: for every TLS configuration, the connector loads the CA file, sets
verification mode to `PEER` exactly when a client certificate/key pair is
provided and to `NONE` otherwise, and in the `PEER` case also installs the
pair. -/
theorem C8_tls_connector (ca : List Char) (client_pair : Option (List Char × List Char)) :
    (new_tls_connector ca client_pair).ca_file = some ca ∧
    (new_tls_connector ca client_pair).verify =
      (if client_pair.isSome then SslVerifyMode.peer else SslVerifyMode.none) ∧
    (new_tls_connector ca client_pair).certificate_file = client_pair.map Prod.fst ∧
    (new_tls_connector ca client_pair).private_key_file = client_pair.map Prod.snd := by
  cases client_pair with
  | none => exact ⟨rfl, rfl, rfl, rfl⟩
  | some pr => cases pr; exact ⟨rfl, rfl, rfl, rfl⟩

/-- C9: `get_socket_address` returns the first resolved endpoint together
with the domain equal to the substring of the broker address before the
first `:`, and fails with `DnsListEmpty` exactly when resolution succeeds
with no endpoint. -/
theorem C9_get_socket_address (broker_addr : List Char)
    (resolved : Except Unit (List SocketAddr)) :
    (∀ a rest, resolved = Except.ok (a :: rest) →
      get_socket_address broker_addr resolved =
        Except.ok (a, domain_per_spec broker_addr)) ∧
    (get_socket_address broker_addr resolved = Except.error ConnectError.dnsListEmpty ↔
      resolved = Except.ok []) := by
  obtain ⟨t, ht⟩ := splitOnChar_head ':' broker_addr
  constructor
  · intro a rest hres
    subst hres
    simp [get_socket_address, ht, domain_per_spec]
  · cases resolved with
    | error e => simp [get_socket_address]
    | ok l => cases l <;> simp [get_socket_address, ht]

/-- C9 witness: the theorem applied at a concrete input — `host:1883`
resolving to one endpoint, and to none. -/
theorem C9_witness :
    get_socket_address addr0 (Except.ok [⟨1, 1883⟩]) =
      Except.ok (⟨1, 1883⟩, ['h','o','s','t']) ∧
    get_socket_address addr0 (Except.ok []) = Except.error ConnectError.dnsListEmpty := by
  constructor
  · have h := (C9_get_socket_address addr0 (Except.ok [⟨1, 1883⟩])).1 ⟨1, 1883⟩ [] rfl
    rw [h]
    rfl
  · exact (C9_get_socket_address addr0 (Except.ok [])).2.mpr rfl

/-- C10: for every inbound packet that yields a notification, a failure of
`notifier.try_send` is non-fatal: the notification is dropped (it never
reaches the delivered list), the error is only logged, and the inbound
receive task continues processing the subsequent packets with the same
error flag it would otherwise have. -/
theorem C10_notify_failure_nonfatal {σ ε : Type}
    (handle : σ → Packet → σ × Except ε (Option Packet × Option Packet))
    (notifyOk replyOk : Nat → Bool) (st st1 : σ) (i : Nat) (p : Packet)
    (rest : List Packet) (n : Packet) (r : Option Packet)
    (h : handle st p = (st1, Except.ok (some n, r)))
    (hn : notifyOk i = false)
    (hr : r = Option.none ∨ replyOk i = true) :
    (mqtt_network_recv_run handle notifyOk replyOk st i (p :: rest)).2.processed =
      p :: (mqtt_network_recv_run handle notifyOk replyOk st1 (i+1) rest).2.processed ∧
    (mqtt_network_recv_run handle notifyOk replyOk st i (p :: rest)).2.delivered =
      (mqtt_network_recv_run handle notifyOk replyOk st1 (i+1) rest).2.delivered ∧
    (mqtt_network_recv_run handle notifyOk replyOk st i (p :: rest)).2.errored =
      (mqtt_network_recv_run handle notifyOk replyOk st1 (i+1) rest).2.errored := by
  rcases hr with rfl | hr
  · simp [mqtt_network_recv_run, h, hn]
  · cases r with
    | none => simp [mqtt_network_recv_run, h, hn]
    | some rp => simp [mqtt_network_recv_run, h, hn, hr]

/-- C10 witness: the theorem applied at a concrete input — a QoS 0 publish
whose notification delivery fails, followed by a `PINGRESP`. -/
theorem C10_witness :
    (mqtt_network_recv_run publish_notifies (fun _ => false) (fun _ => true) () 0
      [pubA, Packet.Pingresp]).2.processed =
      pubA :: (mqtt_network_recv_run publish_notifies (fun _ => false) (fun _ => true) () 1
        [Packet.Pingresp]).2.processed ∧
    (mqtt_network_recv_run publish_notifies (fun _ => false) (fun _ => true) () 0
      [pubA, Packet.Pingresp]).2.delivered =
      (mqtt_network_recv_run publish_notifies (fun _ => false) (fun _ => true) () 1
        [Packet.Pingresp]).2.delivered ∧
    (mqtt_network_recv_run publish_notifies (fun _ => false) (fun _ => true) () 0
      [pubA, Packet.Pingresp]).2.errored =
      (mqtt_network_recv_run publish_notifies (fun _ => false) (fun _ => true) () 1
        [Packet.Pingresp]).2.errored :=
  C10_notify_failure_nonfatal publish_notifies (fun _ => false) (fun _ => true) () () 0
    pubA [Packet.Pingresp] pubA Option.none rfl rfl (Or.inl rfl)
